import Mathlib

/-!
Verification of the ip2asn delegated-statistics ingestion pipeline
(`ip_asn_allocations.go` against `db_schema.txt`).

The embedding models the program at the line level: the input byte stream is
represented as the list of lines the `bufio.Scanner` produces (each line has
its trailing newline, and a single trailing carriage return, already removed,
and contains no newline character).  The three regular expressions of the
source are implemented as explicit character-list parsers with Go's
leftmost-first alternation semantics; none of the alternation lists contains a
word that is a prefix of another, so ordered choice is deterministic except at
the two genuinely optional groups (the country-code group and the date group
of the record pattern), which are modelled as ordered choice with fallback.

The relational store is modelled logically, per the schema: each table is a
list of rows, an insert succeeds unless it violates the table's unique key, in
which case the store signals a MySQL duplicate-key error (number 1062).
Store-side value conversion (INET_ATON / INET6_ATON) is abstracted: the raw
field strings sent by the program stand for the stored key values.  Fatal
paths (`log.Fatal`) and runtime panics are modelled as `none`.
-/

namespace Ip2Asn

/-! ### Character classes and field parsers (the source's regular expressions) -/

/-- The class `[1-9.]` of the version-line pattern (note: no `0`). -/
def isVerChar (c : Char) : Bool := ('1' ≤ c && c ≤ '9') || c == '.'

/-- The class `[0-9a-f:.]` of the record-line value field. -/
def isValChar (c : Char) : Bool :=
  c.isDigit || ('a' ≤ c && c ≤ 'f') || c == ':' || c == '.'

/-- Maximal run of characters satisfying `p` and the remainder
(the behaviour of a greedy character class `([...])+`). -/
def takeClass (p : Char → Bool) : List Char → List Char × List Char
  | [] => ([], [])
  | c :: cs =>
    if p c then
      let r := takeClass p cs
      (c :: r.1, r.2)
    else ([], c :: cs)

/-- A nonempty greedy character-class group followed by a literal `|`
(`([...]+)\|`).  Go's backtracking cannot shorten the run: any shorter run is
followed by a class character, which is not `|`. -/
def classField (p : Char → Bool) (cs : List Char) : Option (List Char × List Char) :=
  if (takeClass p cs).1 = [] then none
  else
    match (takeClass p cs).2 with
    | '|' :: r => some ((takeClass p cs).1, r)
    | _ => none

/-- `([0-9]+)\|` (also `(\d+)\|`, which is the same class). -/
def digitField (cs : List Char) : Option (List Char × List Char) :=
  classField Char.isDigit cs

/-- `([1-9.])+\|` of the version line. -/
def verField (cs : List Char) : Option (List Char × List Char) :=
  classField isVerChar cs

/-- `([0-9a-f:.]+)\|` of the record line. -/
def valField (cs : List Char) : Option (List Char × List Char) :=
  classField isValChar cs

/-- Strip an exact literal from the front of the input. -/
def stripLit : List Char → List Char → Option (List Char)
  | [], s => some s
  | c :: cs, d :: ds => if c = d then stripLit cs ds else none
  | _ :: _, [] => none

/-- Leftmost-first alternation over word literals.  In every alternation of
the source no word is a prefix of another, so at most one branch can match
and ordered choice is deterministic. -/
def tryLits : List String → List Char → Option (String × List Char)
  | [], _ => none
  | w :: ws, cs =>
    match stripLit w.data cs with
    | some r => some (w, r)
    | none => tryLits ws cs

/-- An alternation group followed by a literal `|` (`(a|b|...)\|`). -/
def litField (ws : List String) (cs : List Char) : Option (String × List Char) :=
  match tryLits ws cs with
  | some (w, '|' :: r) => some (w, r)
  | _ => none

/-- `(afrinic|apnic|arin|lacnic|ripencc)` — the five registry short codes. -/
def registryLits : List String := ["afrinic", "apnic", "arin", "lacnic", "ripencc"]

/-- `(asn|ipv4|ipv6)`. -/
def recordTypeLits : List String := ["asn", "ipv4", "ipv6"]

/-- `(allocated|assigned|available|reserved)`. -/
def stateLits : List String := ["allocated", "assigned", "available", "reserved"]

/-! ### Go's strconv, as used by the source -/

/-- Value of a decimal digit string. -/
def digitsToNat (cs : List Char) : Nat :=
  cs.foldl (fun n c => n * 10 + (c.toNat - 48)) 0

/-- Outcome kind of a Go `strconv` parse: success, a syntax error
(`ErrSyntax`) or a range error (`ErrRange`). -/
inductive NumErrKind where
  | ok : NumErrKind
  | malformed : NumErrKind
  | overflowed : NumErrKind
deriving Repr, DecidableEq

/-- The digit loop of Go's `ParseUint(s, 10, bitSize)` with `maxVal` the
bit-size maximum: characters are scanned left to right; the first non-digit
is a syntax error with value 0, and as soon as the accumulated value exceeds
`maxVal` the loop stops with a range error returning `maxVal` — characters
after that point are never examined (so a junk character after an
overflowing digit prefix still yields the range result). -/
def goParseUintLoop (maxVal : Nat) : List Char → Nat → Nat × NumErrKind
  | [], n => (n, NumErrKind.ok)
  | c :: cs, n =>
    if c.isDigit then
      if n * 10 + (c.toNat - 48) > maxVal then (maxVal, NumErrKind.overflowed)
      else goParseUintLoop maxVal cs (n * 10 + (c.toNat - 48))
    else (0, NumErrKind.malformed)

/-- `strconv.ParseUint(s, 10, bitSize)`: an empty input is a syntax error
(a sign prefix is not permitted either — a sign character fails the digit
check); otherwise the digit loop runs against the bit-size maximum. -/
def goParseUintFull (s : List Char) (bitSize : Nat) : Nat × NumErrKind :=
  if s.isEmpty then (0, NumErrKind.malformed)
  else goParseUintLoop (2 ^ bitSize - 1) s 0

/-- The value component of `strconv.ParseUint(s, 10, bitSize)` (the source
discards the error component). -/
def goParseUint (s : String) (bitSize : Nat) : Nat :=
  (goParseUintFull s.data bitSize).1

/-- The tail of `strconv.ParseInt`: a syntax error from `ParseUint` yields 0;
otherwise (success or range error) the unsigned value is checked against the
signed bounds of the bit size, clamping to `2^(bitSize-1) - 1` (positive) or
`-2^(bitSize-1)` (negative) when out of range. -/
def goParseIntOfUint (pos : Bool) (bitSize : Nat) : Nat × NumErrKind → Int
  | (_, NumErrKind.malformed) => 0
  | (un, _) =>
    if pos then
      if 2 ^ (bitSize - 1) ≤ un then Int.ofNat (2 ^ (bitSize - 1) - 1) else Int.ofNat un
    else
      if 2 ^ (bitSize - 1) < un then -Int.ofNat (2 ^ (bitSize - 1)) else -Int.ofNat un

/-- `strconv.ParseInt(s, 10, bitSize)`, value component: an optional sign,
then `ParseUint` of the remainder at the same bit size, then the signed range
check.  The source discards the error component. -/
def goParseInt (s : String) (bitSize : Nat) : Int :=
  match s.data with
  | [] => 0
  | '+' :: ds => goParseIntOfUint true bitSize (goParseUintFull ds bitSize)
  | '-' :: ds => goParseIntOfUint false bitSize (goParseUintFull ds bitSize)
  | ds => goParseIntOfUint true bitSize (goParseUintFull ds bitSize)

/-! ### The file header (`FileHeader`, `parseVersionLine`, `parseSummaryLine`) -/

/-- `FileHeader` of the source (`uint64` fields as `Nat`, `int64` as `Int`). -/
structure FileHeader where
  version : String
  registry : String
  serial : Nat
  records : Nat
  startdate : String
  enddate : String
  UTCoffset : Int
  asnCount : Nat
  ipv4Count : Nat
  ipv6Count : Nat
deriving Repr, DecidableEq

/-- The Go zero value of `FileHeader` (`var hdr FileHeader` in `parseData`). -/
def defaultHeader : FileHeader := ⟨"", "", 0, 0, "", "", 0, 0, 0, 0⟩

/-- The submatches of the version-line pattern
`^([1-9.])+\|(afrinic|apnic|arin|lacnic|ripencc)\|([0-9]+)\|(\d+)\|(\d+)\|(\d+)\|(.*)`.
Group 1 is a repeated single-character group, so it captures only the last
character of the run; group 7 is the whole remainder after the sixth `|`. -/
structure VersionMatches where
  version : String
  registry : String
  serial : String
  records : String
  startdate : String
  enddate : String
  rest : String
deriving Repr, DecidableEq

/-- `re.FindStringSubmatch` for the version-line pattern. -/
def matchVersionLine (line : String) : Option VersionMatches :=
  match verField line.data with
  | none => none
  | some (vrun, r1) =>
    match litField registryLits r1 with
    | none => none
    | some (reg, r2) =>
      match digitField r2 with
      | none => none
      | some (d1, r3) =>
        match digitField r3 with
        | none => none
        | some (d2, r4) =>
          match digitField r4 with
          | none => none
          | some (d3, r5) =>
            match digitField r5 with
            | none => none
            | some (d4, r6) =>
              some ⟨String.mk [vrun.getLastD ' '], reg, String.mk d1, String.mk d2,
                String.mk d3, String.mk d4, String.mk r6⟩

/-- `parseVersionLine`.  `none` models `log.Fatal` (no match without
`-invalid-header-ok`); `some (hdr, false)` models the tolerated no-match
return; on a match the header is filled in: `serial` and `records` via
32-bit `ParseUint`, the UTC offset via 32-bit `ParseInt` of the whole
group-7 remainder followed by integer division by 100 (Go `/` truncates
toward zero), and an all-zero start date replaced by the epoch date. -/
def parseVersionLine (invalidHdrOk : Bool) (hdr : FileHeader) (line : String) :
    Option (FileHeader × Bool) :=
  match matchVersionLine line with
  | none => if invalidHdrOk then some (hdr, false) else none
  | some m =>
    some ({ hdr with
      version := m.version
      registry := m.registry
      serial := goParseUint m.serial 32
      records := goParseUint m.records 32
      startdate := if m.startdate = "00000000" then "19700101" else m.startdate
      enddate := m.enddate
      UTCoffset := Int.tdiv (goParseInt m.rest 32) 100 }, true)

/-- `re.FindStringSubmatch` for the summary-line pattern
`^(afrinic|apnic|arin|lacnic|ripencc)\|\*\|(asn|ipv4|ipv6)\|\*\|([0-9]+)\|summary`
(not end-anchored: anything may follow `summary`).
Returns (registry, record type, count string). -/
def matchSummaryLine (line : String) : Option (String × String × String) :=
  match litField registryLits line.data with
  | none => none
  | some (reg, r1) =>
    match r1 with
    | '*' :: '|' :: r2 =>
      match litField recordTypeLits r2 with
      | none => none
      | some (t, r3) =>
        match r3 with
        | '*' :: '|' :: r4 =>
          match digitField r4 with
          | none => none
          | some (c, r5) =>
            if (stripLit "summary".data r5).isSome then some (reg, t, String.mk c)
            else none
        | _ => none
    | _ => none

/-- `parseSummaryLine`: a non-matching line is ignored; a matching one sets the
declared count of its record type via 64-bit `ParseUint`
(the `panic` on an unknown type is unreachable — the group admits only the
three types). -/
def parseSummaryLine (hdr : FileHeader) (line : String) : FileHeader :=
  match matchSummaryLine line with
  | none => hdr
  | some (_, t, c) =>
    if t = "ipv4" then { hdr with ipv4Count := goParseUint c 64 }
    else if t = "asn" then { hdr with asnCount := goParseUint c 64 }
    else { hdr with ipv6Count := goParseUint c 64 }

/-- The summary-consuming loop of `parseHeader` (up to three lines). -/
def applySummaries (hdr : FileHeader) (ls : List String) : FileHeader :=
  ls.foldl parseSummaryLine hdr

/-- The comment-skipping loop of `parseHeader`:
`for line[0] == '#' || line[0] == '\r' { scan }`.
`line[0]` on an empty string is an index-out-of-range panic (`none`); an
exhausted scanner yields the empty string, hence also `none`. -/
def skipComments : List String → Option (String × List String)
  | [] => none
  | l :: ls =>
    match l.data with
    | [] => none
    | c :: _ => if c = '#' || c = '\r' then skipComments ls else some (l, ls)

/-! ### The record decoder (the record-line pattern of `parseData`) -/

/-- The submatches of the record-line pattern
`^(afrinic|apnic|arin|lacnic|ripencc)\|([A-Z].|)\|(asn|ipv4|ipv6)\|([0-9a-f:.]+)\|([0-9]+)\|([0-9]+|)\|(allocated|assigned|available|reserved)(.*)$`. -/
structure RecordMatches where
  registry : String
  cc : String
  rtype : String
  value : String
  extra : String
  date : String
  state : String
  rest : String
deriving Repr, DecidableEq

/-- Tail of the record pattern after the date group's `|`:
`(allocated|assigned|available|reserved)(.*)$`. -/
def matchRecAfterDate (reg cc t : String) (v x : List Char) (d : String)
    (r : List Char) : Option RecordMatches :=
  match tryLits stateLits r with
  | none => none
  | some (st, r1) =>
    some ⟨reg, cc, t, String.mk v, String.mk x, d, st, String.mk r1⟩

/-- The optional date group `([0-9]+|)\|` then the tail.  Greedy branch first:
a nonempty digit run must be followed by `|`; if the run is nonempty the empty
branch cannot apply (its `\|` would face a digit), so no further fallback
exists after a successful digit run. -/
def matchRecAfterExtra (reg cc t : String) (v x : List Char)
    (r3 : List Char) : Option RecordMatches :=
  match digitField r3 with
  | some (d, r4) => matchRecAfterDate reg cc t v x (String.mk d) r4
  | none =>
    match r3 with
    | '|' :: r4 => matchRecAfterDate reg cc t v x "" r4
    | _ => none

/-- Record pattern from the record-type group on:
`(asn|ipv4|ipv6)\|([0-9a-f:.]+)\|([0-9]+)\|` then the date group and tail. -/
def matchRecAfterCC (reg cc : String) (r : List Char) : Option RecordMatches :=
  match litField recordTypeLits r with
  | none => none
  | some (t, r1) =>
    match valField r1 with
    | none => none
    | some (v, r2) =>
      match digitField r2 with
      | none => none
      | some (x, r3) => matchRecAfterExtra reg cc t v x r3

/-- Empty branch of the country-code group `([A-Z].|)\|`: the group matches
nothing and the following `\|` must come immediately. -/
def matchRecCCEmpty (reg : String) (r2 : List Char) : Option RecordMatches :=
  match r2 with
  | '|' :: r3 => matchRecAfterCC reg "" r3
  | _ => none

/-- The country-code group `([A-Z].|)\|` with Go's leftmost-first alternation:
first an upper-case letter followed by any character (the `.` may even consume
a `|`) and then the literal `|`; if that branch or anything after it fails,
the empty branch is tried. -/
def matchRecCC (reg : String) (r2 : List Char) : Option RecordMatches :=
  match r2 with
  | a :: b :: '|' :: r3 =>
    if a.isUpper then
      match matchRecAfterCC reg (String.mk [a, b]) r3 with
      | some m => some m
      | none => matchRecCCEmpty reg r2
    else matchRecCCEmpty reg r2
  | _ => matchRecCCEmpty reg r2

/-- `re.FindStringSubmatch` for the record-line pattern. -/
def matchRecordLine (line : String) : Option RecordMatches :=
  match litField registryLits line.data with
  | none => none
  | some (reg, r2) => matchRecCC reg r2

/-! ### The relational store (logical model of the schema) -/

/-- A `Datasets` row (`ID`, `ID_Registries`, `serial`, `version`, `records`,
`startdate`, `enddate`, `UTCoffset`); unique on (`ID_Registries`, `serial`). -/
structure DatasetRow where
  id : Nat
  registry : String
  serial : Nat
  version : String
  records : Nat
  startdate : String
  enddate : String
  utcOffset : Int
deriving Repr, DecidableEq

/-- A `Summaries` row as the program populates it (`ID_Datasets`,
`RecordType`, `Count`, plus the extra `hdr.enddate` value the INSERT of the
source supplies); unique on (`ID_Datasets`, `RecordType`).  The auto-increment
`ID` is omitted: no claim depends on it. -/
structure SummaryRow where
  datasetId : Nat
  rtype : String
  count : Nat
  enddate : String
deriving Repr, DecidableEq

/-- A record-table row as the program binds it:
`(DEFAULT, lastID, registry, cc, value, extra, date, state, rest, "", enddate)`
with `lastID` and `hdr.enddate` baked into the prepared statement.  The store
conversion of `value` (INET_ATON / INET6_ATON) is abstracted; the raw strings
stand for the stored key values.  The schema key is
(`ID_Registries`, `CC`, value column, count/prefix column, `RecordDate`,
`State`). -/
structure RecordRow where
  datasetId : Nat
  registry : String
  cc : String
  value : String
  extra : String
  date : String
  state : String
  opaqueId : String
  extensions : String
  enddate : String
deriving Repr, DecidableEq

/-- The unique key of the three record tables (it does not include
`ID_Datasets`). -/
def keyEq (a b : RecordRow) : Bool :=
  a.registry == b.registry && a.cc == b.cc && a.value == b.value &&
    a.extra == b.extra && a.date == b.date && a.state == b.state

/-- The whole store: one list per table plus the `Datasets` auto-increment
counter (the only generated identifier the program reads back). -/
structure DB where
  nextId : Nat
  datasets : List DatasetRow
  summaries : List SummaryRow
  ipv4Rows : List RecordRow
  ipv6Rows : List RecordRow
  asnRows : List RecordRow
deriving Repr, DecidableEq

/-- An empty store. -/
def emptyDB : DB := ⟨0, [], [], [], [], []⟩

/-- `SELECT ID FROM Datasets WHERE ID_Registries = ? AND serial = ?`
(first matching row; the unique key keeps it unique in reachable states). -/
def findDataset : List DatasetRow → String → Nat → Option Nat
  | [], _, _ => none
  | r :: rs, reg, s =>
    if r.registry = reg ∧ r.serial = s then some r.id else findDataset rs reg s

/-- Whether a `Summaries` row with the given unique key
(`ID_Datasets`, `RecordType`) exists. -/
def sumPresent (db : DB) (dsId : Nat) (t : String) : Bool :=
  db.summaries.any (fun s => s.datasetId == dsId && s.rtype == t)

/-- One `INSERT INTO Summaries` attempt: a duplicate of
(`ID_Datasets`, `RecordType`) fails and is only warned about (the row list is
unchanged); otherwise the row is appended. -/
def insertSummary (db : DB) (dsId : Nat) (t : String) (c : Nat) (ed : String) : DB :=
  if sumPresent db dsId t then db
  else { db with summaries := db.summaries ++ [⟨dsId, t, c, ed⟩] }

/-- The summary-insert loop of `saveHeaderData`.  Go iterates the
`map[string]*uint64` in unspecified order; the three record types are
distinct, so the resulting row set does not depend on the order, which is
fixed here as the map literal's order. -/
def insertSummaries (db : DB) (dsId : Nat) (hdr : FileHeader) : DB :=
  insertSummary
    (insertSummary (insertSummary db dsId "ipv4" hdr.ipv4Count hdr.enddate)
      dsId "asn" hdr.asnCount hdr.enddate)
    dsId "ipv6" hdr.ipv6Count hdr.enddate

/-- `saveHeaderData`: insert the `Datasets` row; on a duplicate of
(`ID_Registries`, `serial`) either look the existing `ID` up (force mode) or
`log.Fatal` (`none`); then attempt the three summary inserts.  Returns the
dataset identifier used. -/
def saveHeaderData (force : Bool) (db : DB) (hdr : FileHeader) : Option (DB × Nat) :=
  match findDataset db.datasets hdr.registry hdr.serial with
  | none =>
    let row : DatasetRow :=
      ⟨db.nextId, hdr.registry, hdr.serial, hdr.version, hdr.records,
        hdr.startdate, hdr.enddate, hdr.UTCoffset⟩
    some (insertSummaries
      { db with nextId := db.nextId + 1, datasets := db.datasets ++ [row] }
      db.nextId hdr, db.nextId)
  | some id0 =>
    if force then some (insertSummaries db id0 hdr, id0) else none

/-! ### The record-streaming loop of `parseData` -/

/-- An error returned by a store `Exec`: either a MySQL server error carrying
a number (such as 1062, duplicate key) or any other driver error (broken
connection, context cancellation, ...), which is not a `*mysql.MySQLError`. -/
inductive StoreErr where
  | mysqlErr (num : Nat) : StoreErr
  | otherErr : StoreErr
deriving Repr, DecidableEq

/-- One record `INSERT` attempt on a record table: a duplicate of the natural
key is signalled as MySQL error 1062 and the table is unchanged; otherwise the
row is appended. -/
def insertRecord (rows : List RecordRow) (r : RecordRow) : List RecordRow × Option StoreErr :=
  if rows.any (fun x => keyEq x r) then (rows, some (StoreErr.mysqlErr 1062))
  else (rows ++ [r], none)

/-- The error handling after `recordTypes[matches[3]].Exec(...)`:
`driverErr, _ := err.(*mysql.MySQLError)` followed by
`if !(driverErr.Number == 1062 && *f_force) { warn }`.  For any MySQL error
the branch at most prints a warning and the loop continues; for an error that
is not a `*mysql.MySQLError` the failed type assertion leaves `driverErr`
nil and reading `driverErr.Number` is a nil-pointer dereference — the run
panics (`false`).  `force` only selects whether the warning is printed. -/
def recordExecHandler (e : Option StoreErr) (force : Bool) : Bool :=
  match e, force with
  | none, _ => true
  | some (StoreErr.mysqlErr _), _ => true
  | some StoreErr.otherErr, _ => false

/-- The per-type/total/invalid counters of the streaming loop. -/
structure Counters where
  ipv4 : Nat
  asn : Nat
  ipv6 : Nat
  all : Nat
  invalid : Nat
deriving Repr, DecidableEq

/-- All counters zero. -/
def initCounters : Counters := ⟨0, 0, 0, 0, 0⟩

/-- `counter["all"]++` (the loop post-statement). -/
def bumpAll (c : Counters) : Counters := { c with all := c.all + 1 }

/-- `counter["invalid"]++`. -/
def bumpInvalid (c : Counters) : Counters := { c with invalid := c.invalid + 1 }

/-- `counter[matches[3]]++` (the pattern admits only the three types). -/
def bumpType (c : Counters) (t : String) : Counters :=
  if t = "ipv4" then { c with ipv4 := c.ipv4 + 1 }
  else if t = "asn" then { c with asn := c.asn + 1 }
  else if t = "ipv6" then { c with ipv6 := c.ipv6 + 1 }
  else c

/-- The tuple bound to the prepared statement for one matched line, after the
ARIN date correction (`matches[6]` of `00000000` or empty becomes
`1970-01-01`). -/
def makeRow (dsId : Nat) (ed : String) (m : RecordMatches) : RecordRow :=
  ⟨dsId, m.registry, m.cc, m.value, m.extra,
    if m.date = "00000000" ∨ m.date = "" then "1970-01-01" else m.date,
    m.state, m.rest, "", ed⟩

/-- `recordTypes[t]`: the record table addressed by a record type. -/
def getTable (db : DB) (t : String) : List RecordRow :=
  if t = "ipv4" then db.ipv4Rows
  else if t = "asn" then db.asnRows
  else db.ipv6Rows

/-- Writing back the record table addressed by a record type. -/
def setTable (db : DB) (t : String) (rows : List RecordRow) : DB :=
  if t = "ipv4" then { db with ipv4Rows := rows }
  else if t = "asn" then { db with asnRows := rows }
  else { db with ipv6Rows := rows }

/-- Continuation of one loop iteration after the `Exec`: apply the error
handling; `none` is the nil-dereference panic, otherwise the iteration ends
with the updated store and counters. -/
def processLineCore (force : Bool) (db : DB) (cnt : Counters) (e : Option StoreErr) :
    Option (DB × Counters) :=
  if recordExecHandler e force then some (db, cnt) else none

/-- One iteration of the streaming loop on one input line: classify by the
record pattern; an invalid line only bumps the invalid counter; a matched
line is inserted into its type's table and bumps its type's counter, whatever
the insert outcome. -/
def processLine (force : Bool) (dsId : Nat) (ed : String) (db : DB) (cnt : Counters)
    (line : String) : Option (DB × Counters) :=
  match matchRecordLine line with
  | none => some (db, bumpAll (bumpInvalid cnt))
  | some m =>
    match insertRecord (getTable db m.rtype) (makeRow dsId ed m) with
    | (rows2, e) =>
      processLineCore force (setTable db m.rtype rows2) (bumpAll (bumpType cnt m.rtype)) e

/-- The streaming loop: one iteration per remaining input line. -/
def processRecords (force : Bool) (dsId : Nat) (ed : String) :
    DB → Counters → List String → Option (DB × Counters)
  | db, cnt, [] => some (db, cnt)
  | db, cnt, l :: ls =>
    match processLine force dsId ed db cnt l with
    | none => none
    | some (db2, cnt2) => processRecords force dsId ed db2 cnt2 ls

/-- The counter evolution of one iteration (independent of the store). -/
def lineCounter (cnt : Counters) (line : String) : Counters :=
  match matchRecordLine line with
  | none => bumpAll (bumpInvalid cnt)
  | some m => bumpAll (bumpType cnt m.rtype)

/-- The counter evolution of the whole loop. -/
def countersRun : Counters → List String → Counters :=
  List.foldl lineCounter

/-- The tail of `parseData` after the header is assembled: `saveHeaderData`
(called unconditionally — `parseHeader` does not report whether the version
line parsed), then the prepared statements (which bake in the dataset
identifier and `hdr.enddate`), then the streaming loop over the remaining
lines. -/
def parseDataBody (force : Bool) (db : DB) (hdr : FileHeader) (rest2 : List String) :
    Option (DB × Counters) :=
  match saveHeaderData force db hdr with
  | none => none
  | some (db1, lastId) => processRecords force lastId hdr.enddate db1 initCounters rest2

/-- `parseData` on an already-split line stream: run `parseHeader` (comment
skipping, the version line, and — only if the version line parsed — exactly
the next three lines as summary candidates), then `saveHeaderData`
unconditionally, then stream every remaining line.  `none` models a panic or
`log.Fatal`. -/
def parseData (force invalidHdrOk : Bool) (db : DB) (lines : List String) :
    Option (DB × Counters) :=
  match skipComments lines with
  | none => none
  | some (line1, rest) =>
    match parseVersionLine invalidHdrOk defaultHeader line1 with
    | none => none
    | some (hdr0, true) =>
      parseDataBody force db (applySummaries hdr0 (rest.take 3)) (rest.drop 3)
    | some (hdr0, false) => parseDataBody force db hdr0 rest

/-- Modelled from the spec: a line the spec's §4.1 classifies as Blank
(empty or a stray carriage return) or Comment (starting with `#`). -/
def specBlankOrComment (l : String) : Bool :=
  match l.data with
  | [] => true
  | c :: _ => c = '#' || c = '\r'

/-- Modelled from the spec: the claim's `totalLinesProcessed` — the lines
streamed after the header, "after excluding header/summary/comment/blank
lines". -/
def specTotalLinesProcessed (lines : List String) : Nat :=
  (lines.filter (fun l => !specBlankOrComment l)).length

/-! ### Concrete fixtures used by witnesses -/

/-- A small well-formed input stream: a version line, three non-matching
summary-slot lines, and one ipv4 record line. -/
def sampleStream : List String :=
  ["2.3|apnic|20230101|3|20230101|20230101|900", "s", "s", "s",
    "apnic|JP|ipv4|1.2.3.4|1024|20120101|allocated"]

/-- The header `sampleStream` parses to. -/
def sampleHeader : FileHeader :=
  ⟨"3", "apnic", 20230101, 3, "20230101", "20230101", 9, 0, 0, 0⟩

/-- The store after ingesting `sampleStream` into an empty store. -/
def sampleStore : DB :=
  ⟨1, [⟨0, "apnic", 20230101, "3", 3, "20230101", "20230101", 9⟩],
    [⟨0, "ipv4", 0, "20230101"⟩, ⟨0, "asn", 0, "20230101"⟩, ⟨0, "ipv6", 0, "20230101"⟩],
    [⟨0, "apnic", "JP", "1.2.3.4", "1024", "20120101", "allocated", "", "", "20230101"⟩],
    [], []⟩

/-- The counters after ingesting `sampleStream`. -/
def sampleCounters : Counters := ⟨1, 0, 0, 1, 0⟩

/-! ### Helper lemmas: parsers -/

theorem any_append_one {α : Type} (xs : List α) (x : α) (p : α → Bool) :
    (xs ++ [x]).any p = (xs.any p || p x) := by
  induction xs with
  | nil => simp
  | cons a as ih => simp [ih, Bool.or_assoc]

theorem keyEq_refl (r : RecordRow) : keyEq r r = true := by
  simp [keyEq]

theorem takeClass_all (p : Char → Bool) : ∀ cs : List Char, (takeClass p cs).1.all p = true := by
  intro cs
  induction cs with
  | nil => rfl
  | cons c cs ih => cases hc : p c <;> simp [takeClass, hc, ih]

theorem classField_some {p : Char → Bool} {cs run rest : List Char}
    (h : classField p cs = some (run, rest)) : run ≠ [] ∧ run.all p = true := by
  unfold classField at h
  split at h
  · exact absurd h (by simp)
  · rename_i hne
    split at h
    · simp only [Option.some.injEq, Prod.mk.injEq] at h
      exact ⟨h.1 ▸ hne, h.1 ▸ takeClass_all p cs⟩
    · exact absurd h (by simp)

theorem digitField_some {cs run rest : List Char} (h : digitField cs = some (run, rest)) :
    run ≠ [] ∧ run.all Char.isDigit = true :=
  classField_some h

theorem valField_some {cs run rest : List Char} (h : valField cs = some (run, rest)) :
    run ≠ [] ∧ run.all isValChar = true :=
  classField_some h

theorem foldl_digits_le (cs : List Char) : ∀ n : Nat,
    n ≤ cs.foldl (fun a c => a * 10 + (c.toNat - 48)) n := by
  induction cs with
  | nil => intro n; exact Nat.le_refl n
  | cons c cs ih =>
    intro n
    rw [List.foldl_cons]
    exact le_trans (by omega) (ih (n * 10 + (c.toNat - 48)))

theorem goParseUintLoop_digits (maxVal : Nat) : ∀ (cs : List Char) (n : Nat),
    cs.all Char.isDigit = true → n ≤ maxVal →
    (goParseUintLoop maxVal cs n).1 =
      min (cs.foldl (fun a c => a * 10 + (c.toNat - 48)) n) maxVal := by
  intro cs
  induction cs with
  | nil =>
    intro n _ hn
    rw [List.foldl_nil]
    exact (min_eq_left hn).symm
  | cons c cs ih =>
    intro n hall hn
    rw [List.foldl_cons]
    simp only [List.all_cons, Bool.and_eq_true] at hall
    unfold goParseUintLoop
    rw [if_pos hall.1]
    by_cases hov : n * 10 + (c.toNat - 48) > maxVal
    · rw [if_pos hov]
      have hle := foldl_digits_le cs (n * 10 + (c.toNat - 48))
      exact (min_eq_right (le_of_lt (lt_of_lt_of_le hov hle))).symm
    · rw [if_neg hov]
      exact ih (n * 10 + (c.toNat - 48)) hall.2 (by omega)

/-- On the regex-guaranteed all-digit fields, `ParseUint`'s early-stopping
digit loop computes exactly the min-clamp of the numeral's value. -/
theorem goParseUint_digits {s : String} (hn : s.data ≠ [])
    (hd : s.data.all Char.isDigit = true) (bitSize : Nat) :
    goParseUint s bitSize = min (digitsToNat s.data) (2 ^ bitSize - 1) := by
  unfold goParseUint goParseUintFull
  rw [if_neg (by simp [hn])]
  exact goParseUintLoop_digits (2 ^ bitSize - 1) s.data 0 hd (Nat.zero_le _)

/-- Behaviour of the embedded `strconv.ParseInt` on characteristic group-7
remainders: junk after an in-range digit prefix is a syntax error (value 0);
junk after a digit prefix that already overflowed 32 bits is never reached —
the range error fires first and the signed clamp is returned; a signed
in-range numeral parses exactly. -/
theorem goParseInt_remainder_cases :
    goParseInt "900|" 32 = 0 ∧
      goParseInt "99999999999|" 32 = 2147483647 ∧
      goParseInt "+0100" 32 = 100 ∧
      goParseInt "-150" 32 = -150 := by
  refine ⟨by decide, by decide, by decide, by decide⟩

theorem tryLits_mem : ∀ (ws : List String) (cs : List Char) (w : String) (r : List Char),
    tryLits ws cs = some (w, r) → w ∈ ws := by
  intro ws
  induction ws with
  | nil => intro cs w r h; exact absurd h (by simp [tryLits])
  | cons a as ih =>
    intro cs w r h
    unfold tryLits at h
    split at h
    · simp only [Option.some.injEq, Prod.mk.injEq] at h
      exact h.1 ▸ List.mem_cons_self a as
    · exact List.mem_cons_of_mem a (ih cs w r h)

theorem litField_mem {ws : List String} {cs : List Char} {w : String} {r : List Char}
    (h : litField ws cs = some (w, r)) : w ∈ ws := by
  unfold litField at h
  split at h
  · rename_i w2 r2 heq
    simp only [Option.some.injEq, Prod.mk.injEq] at h
    exact h.1 ▸ tryLits_mem ws cs w2 ('|' :: r2) heq
  · exact absurd h (by simp)

/-! ### Helper lemmas: inversion of the three patterns -/

theorem matchVersionLine_fields {line : String} {m : VersionMatches}
    (h : matchVersionLine line = some m) :
    m.serial.data ≠ [] ∧ m.serial.data.all Char.isDigit = true ∧
      m.records.data ≠ [] ∧ m.records.data.all Char.isDigit = true := by
  unfold matchVersionLine at h
  split at h
  · exact absurd h (by simp)
  · split at h
    · exact absurd h (by simp)
    · split at h
      · exact absurd h (by simp)
      · rename_i d1 r3 h1
        split at h
        · exact absurd h (by simp)
        · rename_i d2 r4 h2
          split at h
          · exact absurd h (by simp)
          · split at h
            · exact absurd h (by simp)
            · simp only [Option.some.injEq] at h
              subst h
              obtain ⟨hn1, hd1⟩ := digitField_some h1
              obtain ⟨hn2, hd2⟩ := digitField_some h2
              exact ⟨hn1, hd1, hn2, hd2⟩

theorem matchRecAfterDate_fields {reg cc t : String} {v x : List Char} {d : String}
    {r : List Char} {m : RecordMatches} (h : matchRecAfterDate reg cc t v x d r = some m) :
    m.rtype = t ∧ m.value = String.mk v ∧ m.extra = String.mk x := by
  unfold matchRecAfterDate at h
  split at h
  · exact absurd h (by simp)
  · simp only [Option.some.injEq] at h
    subst h
    exact ⟨rfl, rfl, rfl⟩

theorem matchRecAfterExtra_fields {reg cc t : String} {v x r3 : List Char}
    {m : RecordMatches} (h : matchRecAfterExtra reg cc t v x r3 = some m) :
    m.rtype = t ∧ m.value = String.mk v ∧ m.extra = String.mk x := by
  unfold matchRecAfterExtra at h
  split at h
  · exact matchRecAfterDate_fields h
  · split at h
    · exact matchRecAfterDate_fields h
    · exact absurd h (by simp)

theorem matchRecAfterCC_fields {reg cc : String} {r : List Char} {m : RecordMatches}
    (h : matchRecAfterCC reg cc r = some m) :
    m.rtype ∈ recordTypeLits ∧ m.value.data ≠ [] ∧ m.value.data.all isValChar = true ∧
      m.extra.data ≠ [] ∧ m.extra.data.all Char.isDigit = true := by
  unfold matchRecAfterCC at h
  split at h
  · exact absurd h (by simp)
  · rename_i t r1 ht
    split at h
    · exact absurd h (by simp)
    · rename_i v r2 hv
      split at h
      · exact absurd h (by simp)
      · rename_i x r3 hx
        obtain ⟨hrt, hval, hext⟩ := matchRecAfterExtra_fields h
        obtain ⟨hvn, hva⟩ := valField_some hv
        obtain ⟨hxn, hxa⟩ := digitField_some hx
        refine ⟨hrt ▸ litField_mem ht, ?_, ?_, ?_, ?_⟩
        · rw [hval]; exact hvn
        · rw [hval]; exact hva
        · rw [hext]; exact hxn
        · rw [hext]; exact hxa

theorem matchRecCCEmpty_fields {reg : String} {r2 : List Char} {m : RecordMatches}
    (h : matchRecCCEmpty reg r2 = some m) :
    m.rtype ∈ recordTypeLits ∧ m.value.data ≠ [] ∧ m.value.data.all isValChar = true ∧
      m.extra.data ≠ [] ∧ m.extra.data.all Char.isDigit = true := by
  unfold matchRecCCEmpty at h
  split at h
  · exact matchRecAfterCC_fields h
  · exact absurd h (by simp)

theorem matchRecCC_fields {reg : String} {r2 : List Char} {m : RecordMatches}
    (h : matchRecCC reg r2 = some m) :
    m.rtype ∈ recordTypeLits ∧ m.value.data ≠ [] ∧ m.value.data.all isValChar = true ∧
      m.extra.data ≠ [] ∧ m.extra.data.all Char.isDigit = true := by
  unfold matchRecCC at h
  split at h
  · split at h
    · split at h
      · rename_i m2 heq
        simp only [Option.some.injEq] at h
        subst h
        exact matchRecAfterCC_fields heq
      · exact matchRecCCEmpty_fields h
    · exact matchRecCCEmpty_fields h
  · exact matchRecCCEmpty_fields h

theorem matchRecordLine_fields {line : String} {m : RecordMatches}
    (h : matchRecordLine line = some m) :
    m.rtype ∈ recordTypeLits ∧ m.value.data ≠ [] ∧ m.value.data.all isValChar = true ∧
      m.extra.data ≠ [] ∧ m.extra.data.all Char.isDigit = true := by
  unfold matchRecordLine at h
  split at h
  · exact absurd h (by simp)
  · exact matchRecCC_fields h

theorem recordType_cases {t : String} (h : t ∈ recordTypeLits) :
    t = "asn" ∨ t = "ipv4" ∨ t = "ipv6" := by
  simpa [recordTypeLits] using h

/-! ### Helper lemmas: tables and counters -/

theorem setTable_fields (db : DB) (t : String) (rows : List RecordRow) :
    (setTable db t rows).datasets = db.datasets ∧
      (setTable db t rows).summaries = db.summaries ∧
      (setTable db t rows).nextId = db.nextId := by
  unfold setTable
  split
  · exact ⟨rfl, rfl, rfl⟩
  · split
    · exact ⟨rfl, rfl, rfl⟩
    · exact ⟨rfl, rfl, rfl⟩

theorem setTable_getTable (db : DB) (t : String) : setTable db t (getTable db t) = db := by
  unfold setTable getTable
  by_cases h4 : t = "ipv4"
  · simp [h4]
  · by_cases ha : t = "asn" <;> simp [h4, ha]

theorem getTable_setTable (db : DB) (t : String) (rows : List RecordRow) :
    getTable (setTable db t rows) t = rows := by
  unfold setTable getTable
  by_cases h4 : t = "ipv4"
  · simp [h4]
  · by_cases ha : t = "asn" <;> simp [h4, ha]

theorem getTable_setTable_cases (db : DB) (t : String) (ys : List RecordRow) (u : String) :
    getTable (setTable db t ys) u = getTable db u ∨
      (getTable (setTable db t ys) u = ys ∧ getTable db u = getTable db t) := by
  unfold setTable getTable
  by_cases h4 : t = "ipv4" <;> by_cases ha : t = "asn" <;>
    by_cases g4 : u = "ipv4" <;> by_cases ga : u = "asn" <;> simp [h4, ha, g4, ga]

theorem bumpType_all (c : Counters) (t : String) : (bumpType c t).all = c.all := by
  unfold bumpType
  split
  · rfl
  · split
    · rfl
    · split <;> rfl

theorem lineCounter_all (cnt : Counters) (l : String) :
    (lineCounter cnt l).all = cnt.all + 1 := by
  unfold lineCounter
  cases hm : matchRecordLine l with
  | none => rfl
  | some m => simp [bumpAll, bumpType_all]

theorem lineCounter_sum (cnt : Counters) (l : String) :
    (lineCounter cnt l).invalid + (lineCounter cnt l).ipv4 + (lineCounter cnt l).asn +
        (lineCounter cnt l).ipv6 =
      cnt.invalid + cnt.ipv4 + cnt.asn + cnt.ipv6 + 1 := by
  unfold lineCounter
  cases hm : matchRecordLine l with
  | none => simp [bumpAll, bumpInvalid]; omega
  | some m =>
    have ht := (matchRecordLine_fields hm).1
    rcases recordType_cases ht with h | h | h <;> simp [bumpAll, bumpType, h] <;> omega

theorem countersRun_cons (cnt : Counters) (l : String) (ls : List String) :
    countersRun cnt (l :: ls) = countersRun (lineCounter cnt l) ls := rfl

theorem countersRun_sums : ∀ (lines : List String) (cnt : Counters),
    (countersRun cnt lines).all = cnt.all + lines.length ∧
      (countersRun cnt lines).invalid + (countersRun cnt lines).ipv4 +
          (countersRun cnt lines).asn + (countersRun cnt lines).ipv6 =
        cnt.invalid + cnt.ipv4 + cnt.asn + cnt.ipv6 + lines.length := by
  intro lines
  induction lines with
  | nil => intro cnt; exact ⟨rfl, rfl⟩
  | cons l ls ih =>
    intro cnt
    rw [countersRun_cons]
    obtain ⟨h1, h2⟩ := ih (lineCounter cnt l)
    refine ⟨?_, ?_⟩
    · rw [h1, lineCounter_all]; simp [List.length_cons]; omega
    · rw [h2, lineCounter_sum]; simp [List.length_cons]; omega

/-! ### Helper lemmas: the streaming loop -/

theorem insertRecord_pos {rows : List RecordRow} {r : RecordRow}
    (hp : rows.any (fun y => keyEq y r) = true) :
    insertRecord rows r = (rows, some (StoreErr.mysqlErr 1062)) := by
  unfold insertRecord
  rw [if_pos hp]

theorem insertRecord_neg {rows : List RecordRow} {r : RecordRow}
    (hp : rows.any (fun y => keyEq y r) = false) :
    insertRecord rows r = (rows ++ [r], none) := by
  unfold insertRecord
  rw [if_neg (by simp [hp])]

theorem processLine_invalid {line : String} (hm : matchRecordLine line = none)
    (force : Bool) (dsId : Nat) (ed : String) (db : DB) (cnt : Counters) :
    processLine force dsId ed db cnt line = some (db, bumpAll (bumpInvalid cnt)) := by
  unfold processLine
  rw [hm]

theorem processLine_dup {line : String} {m : RecordMatches} (hm : matchRecordLine line = some m)
    (force : Bool) (dsId : Nat) (ed : String) {db : DB} (cnt : Counters)
    (hp : (getTable db m.rtype).any (fun y => keyEq y (makeRow dsId ed m)) = true) :
    processLine force dsId ed db cnt line = some (db, bumpAll (bumpType cnt m.rtype)) := by
  simp only [processLine, hm, insertRecord_pos hp]
  show some (setTable db m.rtype (getTable db m.rtype), bumpAll (bumpType cnt m.rtype)) =
    some (db, bumpAll (bumpType cnt m.rtype))
  rw [setTable_getTable]

theorem processLine_new {line : String} {m : RecordMatches} (hm : matchRecordLine line = some m)
    (force : Bool) (dsId : Nat) (ed : String) {db : DB} (cnt : Counters)
    (hp : (getTable db m.rtype).any (fun y => keyEq y (makeRow dsId ed m)) = false) :
    processLine force dsId ed db cnt line =
      some (setTable db m.rtype (getTable db m.rtype ++ [makeRow dsId ed m]),
        bumpAll (bumpType cnt m.rtype)) := by
  simp only [processLine, hm, insertRecord_neg hp]
  rfl

theorem lineCounter_invalid {line : String} (hm : matchRecordLine line = none)
    (cnt : Counters) : lineCounter cnt line = bumpAll (bumpInvalid cnt) := by
  unfold lineCounter
  rw [hm]

theorem lineCounter_matched {line : String} {m : RecordMatches}
    (hm : matchRecordLine line = some m) (cnt : Counters) :
    lineCounter cnt line = bumpAll (bumpType cnt m.rtype) := by
  unfold lineCounter
  rw [hm]

theorem processLine_shape {force : Bool} {dsId : Nat} {ed : String} {db : DB}
    {cnt : Counters} {line : String} {db2 : DB} {cnt2 : Counters}
    (h : processLine force dsId ed db cnt line = some (db2, cnt2)) :
    db2.datasets = db.datasets ∧ db2.summaries = db.summaries ∧ db2.nextId = db.nextId ∧
      cnt2 = lineCounter cnt line ∧
      (∀ (u : String) (r2 : RecordRow),
        (getTable db u).any (fun y => keyEq y r2) = true →
          (getTable db2 u).any (fun y => keyEq y r2) = true) := by
  cases hm : matchRecordLine line with
  | none =>
    rw [processLine_invalid hm] at h
    simp only [Option.some.injEq, Prod.mk.injEq] at h
    obtain ⟨h1, h2⟩ := h
    subst h1
    exact ⟨rfl, rfl, rfl, by rw [← h2, lineCounter_invalid hm], fun u r2 hp => hp⟩
  | some m =>
    cases hp : (getTable db m.rtype).any (fun y => keyEq y (makeRow dsId ed m)) with
    | true =>
      rw [processLine_dup hm force dsId ed cnt hp] at h
      simp only [Option.some.injEq, Prod.mk.injEq] at h
      obtain ⟨h1, h2⟩ := h
      subst h1
      exact ⟨rfl, rfl, rfl, by rw [← h2, lineCounter_matched hm], fun u r2 hq => hq⟩
    | false =>
      rw [processLine_new hm force dsId ed cnt hp] at h
      simp only [Option.some.injEq, Prod.mk.injEq] at h
      obtain ⟨h1, h2⟩ := h
      subst h1
      obtain ⟨hd, hs, hn⟩ := setTable_fields db m.rtype
        (getTable db m.rtype ++ [makeRow dsId ed m])
      refine ⟨hd, hs, hn, by rw [← h2, lineCounter_matched hm], ?_⟩
      intro u r2 hq
      rcases getTable_setTable_cases db m.rtype
          (getTable db m.rtype ++ [makeRow dsId ed m]) u with hc | ⟨hc, he⟩
      · rw [hc]; exact hq
      · rw [hc, any_append_one]
        rw [he] at hq
        simp [hq]

theorem processLine_total (force : Bool) (dsId : Nat) (ed : String) (db : DB)
    (cnt : Counters) (line : String) :
    ∃ db2, processLine force dsId ed db cnt line = some (db2, lineCounter cnt line) := by
  cases hm : matchRecordLine line with
  | none => exact ⟨db, by rw [processLine_invalid hm, lineCounter_invalid hm]⟩
  | some m =>
    cases hp : (getTable db m.rtype).any (fun y => keyEq y (makeRow dsId ed m)) with
    | true =>
      exact ⟨db, by rw [processLine_dup hm force dsId ed cnt hp, lineCounter_matched hm]⟩
    | false =>
      exact ⟨setTable db m.rtype (getTable db m.rtype ++ [makeRow dsId ed m]),
        by rw [processLine_new hm force dsId ed cnt hp, lineCounter_matched hm]⟩

theorem processLine_establishes {force : Bool} {dsId : Nat} {ed : String} {db : DB}
    {cnt : Counters} {line : String} {db2 : DB} {cnt2 : Counters}
    (h : processLine force dsId ed db cnt line = some (db2, cnt2))
    {m : RecordMatches} (hm : matchRecordLine line = some m) :
    (getTable db2 m.rtype).any (fun y => keyEq y (makeRow dsId ed m)) = true := by
  cases hp : (getTable db m.rtype).any (fun y => keyEq y (makeRow dsId ed m)) with
  | true =>
    rw [processLine_dup hm force dsId ed cnt hp] at h
    simp only [Option.some.injEq, Prod.mk.injEq] at h
    rw [← h.1]
    exact hp
  | false =>
    rw [processLine_new hm force dsId ed cnt hp] at h
    simp only [Option.some.injEq, Prod.mk.injEq] at h
    rw [← h.1, getTable_setTable, any_append_one, keyEq_refl]
    simp

theorem processRecords_shape : ∀ (lines : List String) (force : Bool) (dsId : Nat)
    (ed : String) (db : DB) (cnt : Counters) (db2 : DB) (cnt2 : Counters),
    processRecords force dsId ed db cnt lines = some (db2, cnt2) →
    db2.datasets = db.datasets ∧ db2.summaries = db.summaries ∧ db2.nextId = db.nextId ∧
      cnt2 = countersRun cnt lines ∧
      (∀ (u : String) (r2 : RecordRow),
        (getTable db u).any (fun y => keyEq y r2) = true →
          (getTable db2 u).any (fun y => keyEq y r2) = true) := by
  intro lines
  induction lines with
  | nil =>
    intro force dsId ed db cnt db2 cnt2 h
    unfold processRecords at h
    simp only [Option.some.injEq, Prod.mk.injEq] at h
    obtain ⟨h1, h2⟩ := h
    subst h1
    exact ⟨rfl, rfl, rfl, h2.symm, fun u r2 hq => hq⟩
  | cons l ls ih =>
    intro force dsId ed db cnt db2 cnt2 h
    unfold processRecords at h
    cases hpl : processLine force dsId ed db cnt l with
    | none => rw [hpl] at h; exact absurd h (by simp)
    | some p =>
      obtain ⟨dbm, cntm⟩ := p
      rw [hpl] at h
      obtain ⟨hd1, hs1, hn1, hc1, hmono1⟩ := processLine_shape hpl
      obtain ⟨hd2, hs2, hn2, hc2, hmono2⟩ := ih force dsId ed dbm cntm db2 cnt2 h
      refine ⟨hd2.trans hd1, hs2.trans hs1, hn2.trans hn1, ?_,
        fun u r2 hq => hmono2 u r2 (hmono1 u r2 hq)⟩
      rw [hc2, hc1, countersRun_cons]

theorem processRecords_total : ∀ (lines : List String) (force : Bool) (dsId : Nat)
    (ed : String) (db : DB) (cnt : Counters),
    ∃ db2, processRecords force dsId ed db cnt lines = some (db2, countersRun cnt lines) := by
  intro lines
  induction lines with
  | nil => intro force dsId ed db cnt; exact ⟨db, rfl⟩
  | cons l ls ih =>
    intro force dsId ed db cnt
    obtain ⟨dbm, hm⟩ := processLine_total force dsId ed db cnt l
    obtain ⟨db2, h2⟩ := ih force dsId ed dbm (lineCounter cnt l)
    refine ⟨db2, ?_⟩
    unfold processRecords
    rw [hm]
    rw [countersRun_cons]
    exact h2

theorem processRecords_establishes : ∀ (lines : List String) (force : Bool) (dsId : Nat)
    (ed : String) (db : DB) (cnt : Counters) (db2 : DB) (cnt2 : Counters),
    processRecords force dsId ed db cnt lines = some (db2, cnt2) →
    ∀ l ∈ lines, ∀ m : RecordMatches, matchRecordLine l = some m →
      (getTable db2 m.rtype).any (fun y => keyEq y (makeRow dsId ed m)) = true := by
  intro lines
  induction lines with
  | nil => intro force dsId ed db cnt db2 cnt2 h l hl; exact absurd hl (by simp)
  | cons l0 ls ih =>
    intro force dsId ed db cnt db2 cnt2 h l hl m hm
    unfold processRecords at h
    cases hpl : processLine force dsId ed db cnt l0 with
    | none => rw [hpl] at h; exact absurd h (by simp)
    | some p =>
      obtain ⟨dbm, cntm⟩ := p
      rw [hpl] at h
      rcases List.mem_cons.mp hl with he | hmem
      · subst he
        have hest := processLine_establishes hpl hm
        exact (processRecords_shape ls force dsId ed dbm cntm db2 cnt2 h).2.2.2.2
          m.rtype (makeRow dsId ed m) hest
      · exact ih force dsId ed dbm cntm db2 cnt2 h l hmem m hm

theorem processRecords_noop : ∀ (lines : List String) (force : Bool) (dsId : Nat)
    (ed : String) (db : DB) (cnt : Counters),
    (∀ l ∈ lines, ∀ m : RecordMatches, matchRecordLine l = some m →
      (getTable db m.rtype).any (fun y => keyEq y (makeRow dsId ed m)) = true) →
    processRecords force dsId ed db cnt lines = some (db, countersRun cnt lines) := by
  intro lines
  induction lines with
  | nil => intro force dsId ed db cnt _; rfl
  | cons l ls ih =>
    intro force dsId ed db cnt hkeys
    unfold processRecords
    have hpl : processLine force dsId ed db cnt l = some (db, lineCounter cnt l) := by
      cases hm : matchRecordLine l with
      | none => rw [processLine_invalid hm, lineCounter_invalid hm]
      | some m =>
        have hp := hkeys l (List.mem_cons_self l ls) m hm
        rw [processLine_dup hm force dsId ed cnt hp, lineCounter_matched hm]
    rw [hpl, countersRun_cons]
    exact ih force dsId ed db (lineCounter cnt l)
      (fun l2 hl2 m2 hm2 => hkeys l2 (List.mem_cons_of_mem l hl2) m2 hm2)

/-! ### Helper lemmas: header persistence -/

theorem sumPresent_insertSummary (db : DB) (dsId : Nat) (t : String) (c : Nat) (ed : String) :
    sumPresent (insertSummary db dsId t c ed) dsId t = true := by
  unfold insertSummary
  by_cases hp : sumPresent db dsId t = true
  · rw [if_pos hp]; exact hp
  · rw [if_neg hp]
    unfold sumPresent at *
    simp [any_append_one]

theorem insertSummary_mono {db : DB} {dsId2 : Nat} {t2 : String}
    (dsId : Nat) (t : String) (c : Nat) (ed : String)
    (h : sumPresent db dsId2 t2 = true) :
    sumPresent (insertSummary db dsId t c ed) dsId2 t2 = true := by
  unfold insertSummary
  by_cases hp : sumPresent db dsId t = true
  · rw [if_pos hp]; exact h
  · rw [if_neg hp]
    unfold sumPresent at *
    simp [any_append_one, h]

theorem insertSummary_fields (db : DB) (dsId : Nat) (t : String) (c : Nat) (ed : String) :
    (insertSummary db dsId t c ed).datasets = db.datasets ∧
      (insertSummary db dsId t c ed).nextId = db.nextId ∧
      (insertSummary db dsId t c ed).ipv4Rows = db.ipv4Rows ∧
      (insertSummary db dsId t c ed).ipv6Rows = db.ipv6Rows ∧
      (insertSummary db dsId t c ed).asnRows = db.asnRows := by
  unfold insertSummary
  split
  · exact ⟨rfl, rfl, rfl, rfl, rfl⟩
  · exact ⟨rfl, rfl, rfl, rfl, rfl⟩

theorem sumPresent_insertSummaries (db : DB) (dsId : Nat) (hdr : FileHeader) :
    sumPresent (insertSummaries db dsId hdr) dsId "ipv4" = true ∧
      sumPresent (insertSummaries db dsId hdr) dsId "asn" = true ∧
      sumPresent (insertSummaries db dsId hdr) dsId "ipv6" = true := by
  unfold insertSummaries
  refine ⟨?_, ?_, ?_⟩
  · exact insertSummary_mono _ _ _ _ (insertSummary_mono _ _ _ _
      (sumPresent_insertSummary db dsId "ipv4" hdr.ipv4Count hdr.enddate))
  · exact insertSummary_mono _ _ _ _ (sumPresent_insertSummary _ dsId "asn" _ _)
  · exact sumPresent_insertSummary _ dsId "ipv6" _ _

theorem insertSummaries_fields (db : DB) (dsId : Nat) (hdr : FileHeader) :
    (insertSummaries db dsId hdr).datasets = db.datasets ∧
      (insertSummaries db dsId hdr).nextId = db.nextId ∧
      (insertSummaries db dsId hdr).ipv4Rows = db.ipv4Rows ∧
      (insertSummaries db dsId hdr).ipv6Rows = db.ipv6Rows ∧
      (insertSummaries db dsId hdr).asnRows = db.asnRows := by
  unfold insertSummaries
  obtain ⟨a1, a2, a3, a4, a5⟩ := insertSummary_fields db dsId "ipv4" hdr.ipv4Count hdr.enddate
  obtain ⟨b1, b2, b3, b4, b5⟩ := insertSummary_fields
    (insertSummary db dsId "ipv4" hdr.ipv4Count hdr.enddate) dsId "asn" hdr.asnCount hdr.enddate
  obtain ⟨c1, c2, c3, c4, c5⟩ := insertSummary_fields
    (insertSummary (insertSummary db dsId "ipv4" hdr.ipv4Count hdr.enddate)
      dsId "asn" hdr.asnCount hdr.enddate) dsId "ipv6" hdr.ipv6Count hdr.enddate
  exact ⟨c1.trans (b1.trans a1), c2.trans (b2.trans a2), c3.trans (b3.trans a3),
    c4.trans (b4.trans a4), c5.trans (b5.trans a5)⟩

theorem insertSummary_noop {db : DB} {dsId : Nat} {t : String} (c : Nat) (ed : String)
    (h : sumPresent db dsId t = true) : insertSummary db dsId t c ed = db := by
  unfold insertSummary
  rw [if_pos h]

theorem insertSummaries_noop {db : DB} {dsId : Nat} (hdr : FileHeader)
    (h4 : sumPresent db dsId "ipv4" = true) (ha : sumPresent db dsId "asn" = true)
    (h6 : sumPresent db dsId "ipv6" = true) : insertSummaries db dsId hdr = db := by
  unfold insertSummaries
  rw [insertSummary_noop _ _ h4, insertSummary_noop _ _ ha, insertSummary_noop _ _ h6]

theorem findDataset_append_none {reg : String} {s : Nat} :
    ∀ {xs : List DatasetRow} (ys : List DatasetRow), findDataset xs reg s = none →
      findDataset (xs ++ ys) reg s = findDataset ys reg s := by
  intro xs
  induction xs with
  | nil => intro ys h; rfl
  | cons r rs ih =>
    intro ys h
    unfold findDataset at h
    split at h
    · exact absurd h (by simp)
    · rename_i hc
      rw [List.cons_append]
      show (if r.registry = reg ∧ r.serial = s then some r.id
        else findDataset (rs ++ ys) reg s) = findDataset ys reg s
      rw [if_neg hc]
      exact ih ys h

theorem saveHeaderData_props {force : Bool} {db : DB} {hdr : FileHeader} {dbA : DB}
    {dsid : Nat} (h : saveHeaderData force db hdr = some (dbA, dsid)) :
    findDataset dbA.datasets hdr.registry hdr.serial = some dsid ∧
      sumPresent dbA dsid "ipv4" = true ∧ sumPresent dbA dsid "asn" = true ∧
      sumPresent dbA dsid "ipv6" = true ∧
      dbA.ipv4Rows = db.ipv4Rows ∧ dbA.ipv6Rows = db.ipv6Rows ∧ dbA.asnRows = db.asnRows := by
  unfold saveHeaderData at h
  split at h
  · rename_i hf
    simp only [Option.some.injEq, Prod.mk.injEq] at h
    obtain ⟨h1, h2⟩ := h
    subst h2
    set row : DatasetRow :=
      ⟨db.nextId, hdr.registry, hdr.serial, hdr.version, hdr.records,
        hdr.startdate, hdr.enddate, hdr.UTCoffset⟩ with hrow
    set db2 : DB := { db with nextId := db.nextId + 1, datasets := db.datasets ++ [row] }
      with hdb2
    obtain ⟨e1, _, e3, e4, e5⟩ := insertSummaries_fields db2 db.nextId hdr
    obtain ⟨p4, pa, p6⟩ := sumPresent_insertSummaries db2 db.nextId hdr
    subst h1
    refine ⟨?_, p4, pa, p6, e3, e4, e5⟩
    rw [e1]
    show findDataset (db.datasets ++ [row]) hdr.registry hdr.serial = some db.nextId
    rw [findDataset_append_none [row] hf]
    unfold findDataset
    rw [if_pos ⟨rfl, rfl⟩]
  · rename_i id0 hf
    cases force with
    | false => exact absurd h (by simp)
    | true =>
      simp only [if_true, Option.some.injEq, Prod.mk.injEq] at h
      obtain ⟨h1, h2⟩ := h
      subst h2
      obtain ⟨e1, _, e3, e4, e5⟩ := insertSummaries_fields db id0 hdr
      obtain ⟨p4, pa, p6⟩ := sumPresent_insertSummaries db id0 hdr
      subst h1
      refine ⟨?_, p4, pa, p6, e3, e4, e5⟩
      rw [e1]
      exact hf

theorem saveHeaderData_rerun {db : DB} {hdr : FileHeader} {dsid : Nat}
    (hf : findDataset db.datasets hdr.registry hdr.serial = some dsid)
    (h4 : sumPresent db dsid "ipv4" = true) (ha : sumPresent db dsid "asn" = true)
    (h6 : sumPresent db dsid "ipv6" = true) :
    saveHeaderData true db hdr = some (db, dsid) := by
  unfold saveHeaderData
  rw [hf]
  simp only [if_true]
  rw [insertSummaries_noop hdr h4 ha h6]

theorem saveHeaderData_noforce_dup {db : DB} {hdr : FileHeader} {dsid : Nat}
    (hf : findDataset db.datasets hdr.registry hdr.serial = some dsid) :
    saveHeaderData false db hdr = none := by
  unfold saveHeaderData
  rw [hf]
  simp

/-! ### Helper lemmas: `parseDataBody` -/

theorem parseDataBody_idempotent {db0 db1 : DB} {hdr : FileHeader} {rest2 : List String}
    {cnt : Counters} (h : parseDataBody true db0 hdr rest2 = some (db1, cnt)) :
    parseDataBody true db1 hdr rest2 = some (db1, cnt) := by
  unfold parseDataBody at h
  split at h
  · exact absurd h (by simp)
  · rename_i dbA lastId hs
    obtain ⟨hfindA, hp4, hpa, hp6, _, _, _⟩ := saveHeaderData_props hs
    obtain ⟨hds, hsm, _, hcnt, _⟩ :=
      processRecords_shape rest2 true lastId hdr.enddate dbA initCounters db1 cnt h
    have hs2 : saveHeaderData true db1 hdr = some (db1, lastId) := by
      apply saveHeaderData_rerun
      · rw [hds]; exact hfindA
      · unfold sumPresent; rw [hsm]; exact hp4
      · unfold sumPresent; rw [hsm]; exact hpa
      · unfold sumPresent; rw [hsm]; exact hp6
    have hkeys : ∀ l ∈ rest2, ∀ m : RecordMatches, matchRecordLine l = some m →
        (getTable db1 m.rtype).any (fun y => keyEq y (makeRow lastId hdr.enddate m)) = true :=
      processRecords_establishes rest2 true lastId hdr.enddate dbA initCounters db1 cnt h
    simp only [parseDataBody, hs2]
    rw [processRecords_noop rest2 true lastId hdr.enddate db1 initCounters hkeys, hcnt]

theorem parseDataBody_noforce_refatal {db0 db1 : DB} {hdr : FileHeader}
    {rest2 : List String} {cnt : Counters}
    (h : parseDataBody false db0 hdr rest2 = some (db1, cnt)) (rest3 : List String) :
    parseDataBody false db1 hdr rest3 = none := by
  unfold parseDataBody at h
  split at h
  · exact absurd h (by simp)
  · rename_i dbA lastId hs
    obtain ⟨hfindA, _, _, _, _, _, _⟩ := saveHeaderData_props hs
    obtain ⟨hds, _, _, _, _⟩ :=
      processRecords_shape rest2 false lastId hdr.enddate dbA initCounters db1 cnt h
    have hdup : saveHeaderData false db1 hdr = none :=
      saveHeaderData_noforce_dup (by rw [hds]; exact hfindA)
    simp only [parseDataBody, hdup]

/-! ### Claim theorems -/

/-- C1: ingesting the same line stream twice with force mode enabled leaves the
store exactly as after one ingest — the whole store state (Datasets, Summaries
and the three Records tables) is unchanged by the second run, and the second
run reports the same counters. -/
theorem ingest_idempotent (ih : Bool) (db0 db1 : DB) (cnt : Counters) (lines : List String)
    (h : parseData true ih db0 lines = some (db1, cnt)) :
    parseData true ih db1 lines = some (db1, cnt) := by
  unfold parseData at h
  split at h
  · exact absurd h (by simp)
  · rename_i line1 rest hsc
    split at h
    · exact absurd h (by simp)
    · rename_i hdr0 hv
      simp only [parseData, hsc, hv]
      exact parseDataBody_idempotent h
    · rename_i hdr0 hv
      simp only [parseData, hsc, hv]
      exact parseDataBody_idempotent h

/-- C1 witness: a concrete stream ingested once into an empty store, then
ingested again, with force mode enabled. -/
theorem ingest_idempotent_witness :
    parseData true false emptyDB sampleStream = some (sampleStore, sampleCounters) ∧
      parseData true false sampleStore sampleStream = some (sampleStore, sampleCounters) :=
  ⟨by decide,
    ingest_idempotent false emptyDB sampleStore sampleCounters sampleStream (by decide)⟩

/-- C7: a duplicate (registry, serial) at the Dataset insert is resolved by
looking up and reusing the existing row's identifier when force mode is
enabled, and is fatal without force mode — in particular ingesting the same
stream twice without force aborts the second run (at the Dataset-persistence
step: the header phases are deterministic and identical in both runs). -/
theorem dataset_duplicate_handling :
    (∀ (db : DB) (hdr : FileHeader) (dsid : Nat),
        findDataset db.datasets hdr.registry hdr.serial = some dsid →
        saveHeaderData true db hdr = some (insertSummaries db dsid hdr, dsid) ∧
          saveHeaderData false db hdr = none) ∧
      (∀ (ih : Bool) (db0 db1 : DB) (cnt : Counters) (lines : List String),
        parseData false ih db0 lines = some (db1, cnt) →
        parseData false ih db1 lines = none) := by
  constructor
  · intro db hdr dsid hf
    constructor
    · simp only [saveHeaderData, hf, if_true]
    · exact saveHeaderData_noforce_dup hf
  · intro ih db0 db1 cnt lines h
    unfold parseData at h
    split at h
    · exact absurd h (by simp)
    · rename_i line1 rest hsc
      split at h
      · exact absurd h (by simp)
      · rename_i hdr0 hv
        simp only [parseData, hsc, hv]
        exact parseDataBody_noforce_refatal h _
      · rename_i hdr0 hv
        simp only [parseData, hsc, hv]
        exact parseDataBody_noforce_refatal h _

/-- C7 witness: on the concrete post-ingest store, the duplicate Dataset is
fatal without force, and a full second no-force run of the concrete stream is
fatal. -/
theorem dataset_duplicate_handling_witness :
    saveHeaderData false sampleStore sampleHeader = none ∧
      parseData false false sampleStore sampleStream = none :=
  ⟨(dataset_duplicate_handling.1 sampleStore sampleHeader 0 (by decide)).2,
    dataset_duplicate_handling.2 false emptyDB sampleStore sampleCounters sampleStream
      (by decide)⟩

/-- C2 (amended): when the version line does not match and the
invalid-header-tolerated mode is on, `parseVersionLine` returns ok=false and
the summary lines are not consumed, but the caller does NOT skip header
persistence — `parseData` still runs `saveHeaderData` with the zero-valued
default descriptor before streaming the remaining lines; with the mode off, a
non-matching version line is fatal for the whole run. -/
theorem invalid_header_tolerated_behaviour :
    (∀ (hdr : FileHeader) (line : String), matchVersionLine line = none →
        parseVersionLine true hdr line = some (hdr, false) ∧
          parseVersionLine false hdr line = none) ∧
      (∀ (force : Bool) (db : DB) (lines : List String) (l1 : String) (rest : List String),
        skipComments lines = some (l1, rest) → matchVersionLine l1 = none →
        parseData force true db lines = parseDataBody force db defaultHeader rest ∧
          parseData force false db lines = none) := by
  constructor
  · intro hdr line hm
    exact ⟨by simp only [parseVersionLine, hm, if_true], by simp only [parseVersionLine, hm]; rfl⟩
  · intro force db lines l1 rest hsc hm
    have hv1 : parseVersionLine true defaultHeader l1 = some (defaultHeader, false) := by
      simp only [parseVersionLine, hm, if_true]
    have hv2 : parseVersionLine false defaultHeader l1 = none := by
      simp only [parseVersionLine, hm]; rfl
    exact ⟨by simp only [parseData, hsc, hv1], by simp only [parseData, hsc, hv2]⟩

/-- C2 witness: a concrete stream whose first line matches nothing. -/
theorem invalid_header_tolerated_behaviour_witness :
    parseData false true emptyDB ["garbage"] = parseDataBody false emptyDB defaultHeader [] ∧
      parseData false false emptyDB ["garbage"] = none :=
  (invalid_header_tolerated_behaviour.2 false emptyDB ["garbage"] "garbage" []
    (by decide) (by decide))

/-- C2 counterexample: with the invalid-header-tolerated mode on and a
non-matching first line, the run persists a Dataset row (with the zero-valued
descriptor) and three Summary rows — the claim's "no Dataset or Summary rows
are written" is false. -/
theorem invalid_header_persists_dataset_cex :
    (parseData false true emptyDB ["garbage"]).map (fun p => p.1.datasets) =
        some [⟨0, "", 0, "", 0, "", "", 0⟩] ∧
      (parseData false true emptyDB ["garbage"]).map (fun p => p.1.summaries) =
        some [⟨0, "ipv4", 0, ""⟩, ⟨0, "asn", 0, ""⟩, ⟨0, "ipv6", 0, ""⟩] := by
  constructor <;> decide

/-- C3 (amended): for every version line matching the pattern, the parsed
descriptor echoes the registry field and echoes the serial and recordCount
fields provided their decimal values fit in 32 bits (the parse is 32-bit
bounded), and an all-zero start date is normalized to the epoch date. -/
theorem version_line_echo (ih : Bool) (line : String) (m : VersionMatches)
    (hm : matchVersionLine line = some m)
    (hs : digitsToNat m.serial.data < 2 ^ 32)
    (hr : digitsToNat m.records.data < 2 ^ 32) :
    (parseVersionLine ih defaultHeader line).map
        (fun p => (p.1.registry, p.1.serial, p.1.records, p.2)) =
      some (m.registry, digitsToNat m.serial.data, digitsToNat m.records.data, true) ∧
      (m.startdate = "00000000" →
        (parseVersionLine ih defaultHeader line).map (fun p => p.1.startdate) =
          some "19700101") := by
  obtain ⟨hn1, hd1, hn2, hd2⟩ := matchVersionLine_fields hm
  have hu1 : goParseUint m.serial 32 = digitsToNat m.serial.data := by
    rw [goParseUint_digits hn1 hd1]
    exact min_eq_left (Nat.le_pred_of_lt hs)
  have hu2 : goParseUint m.records 32 = digitsToNat m.records.data := by
    rw [goParseUint_digits hn2 hd2]
    exact min_eq_left (Nat.le_pred_of_lt hr)
  constructor
  · simp only [parseVersionLine, hm, Option.map_some']
    rw [hu1, hu2]
  · intro hsd
    simp only [parseVersionLine, hm, Option.map_some']
    rw [if_pos hsd]

/-- C3 witness: a concrete well-formed version line with an all-zero start
date; registry, serial and recordCount are echoed and the start date is
normalized. -/
theorem version_line_echo_witness :
    (parseVersionLine false defaultHeader "2.3|apnic|20230101|3|00000000|20230101|900").map
        (fun p => (p.1.registry, p.1.serial, p.1.records, p.2)) =
      some ("apnic", 20230101, 3, true) ∧
      (parseVersionLine false defaultHeader "2.3|apnic|20230101|3|00000000|20230101|900").map
          (fun p => p.1.startdate) = some "19700101" := by
  have h := version_line_echo false "2.3|apnic|20230101|3|00000000|20230101|900"
    ⟨"3", "apnic", "20230101", "3", "00000000", "20230101", "900"⟩
    (by decide) (by decide) (by decide)
  exact ⟨by rw [h.1]; rfl, by rw [h.2 rfl]⟩

/-- C3 counterexample: the version line with serial field 4294967296 (= 2^32)
matches the grammar, but the stored serial is 4294967295 — the serial is not
echoed, refuting the unconditional echo claim. -/
theorem serial_echo_overflow_cex :
    matchVersionLine "2.3|apnic|4294967296|3|20230101|20230101|900" =
        some ⟨"3", "apnic", "4294967296", "3", "20230101", "20230101", "900"⟩ ∧
      (parseVersionLine false defaultHeader "2.3|apnic|4294967296|3|20230101|20230101|900").map
        (fun p => (p.1.serial, p.2)) = some (4294967295, true) := by
  constructor <;> decide

/-- C4 (amended): for every version line accepted by the header parser the UTC
offset is `strconv.ParseInt`'s signed-32-bit value of the ENTIRE remainder
after the sixth pipe (capture group 7 is `(.*)`), divided by 100 with
truncation — so a remainder that is exactly the decimal hundredths-of-hours
offset is normalized to whole hours; a remainder whose junk (trailing pipe or
extra field) is reached before any overflow is a syntax error and yields 0
(the spec's example), while a remainder whose digit prefix already overflows
32 bits yields the signed clamp `2^31 - 1` (hence offset 21474836). -/
theorem utc_offset_division (ih : Bool) (line : String) (m : VersionMatches)
    (hm : matchVersionLine line = some m) :
    (parseVersionLine ih defaultHeader line).map (fun p => p.1.UTCoffset) =
      some (Int.tdiv (goParseInt m.rest 32) 100) := by
  simp only [parseVersionLine, hm, Option.map_some']

/-- C4 witness: the example line without a trailing pipe yields 9 hours. -/
theorem utc_offset_division_witness :
    (parseVersionLine false defaultHeader "2.3|apnic|20230101|3|20230101|20230101|900").map
        (fun p => p.1.UTCoffset) = some 9 := by
  rw [utc_offset_division false "2.3|apnic|20230101|3|20230101|20230101|900"
    ⟨"3", "apnic", "20230101", "3", "20230101", "20230101", "900"⟩ (by decide)]
  decide

/-- C4 counterexample: the spec's example line
`2.3|apnic|20230101|3|20230101|20230101|900|` (with the trailing pipe) yields
a UTC offset of 0, not the claimed 9: the group-7 remainder is `900|`, which
fails the integer parse. -/
theorem utc_offset_trailing_pipe_cex :
    (parseVersionLine false defaultHeader "2.3|apnic|20230101|3|20230101|20230101|900|").map
        (fun p => p.1.UTCoffset) = some 0 := by
  decide

/-- C5 (amended): the decoder checks only the outer character-class pattern:
a line that does not match is counted invalid, and a matching line is counted
under its declared record type — its value field is a nonempty string over
`[0-9a-f:.]` and its extra field a nonempty digit string, but no dotted-quad /
128-bit / width validation is performed at decode level (it is delegated to
the store's conversion functions). -/
theorem record_decoder_shape_checks :
    (∀ (line : String), matchRecordLine line = none →
      ∀ (force : Bool) (dsId : Nat) (ed : String) (db : DB) (cnt : Counters),
        processLine force dsId ed db cnt line = some (db, bumpAll (bumpInvalid cnt))) ∧
      (∀ (line : String) (m : RecordMatches), matchRecordLine line = some m →
        m.rtype ∈ recordTypeLits ∧
          m.value.data ≠ [] ∧ m.value.data.all isValChar = true ∧
          m.extra.data ≠ [] ∧ m.extra.data.all Char.isDigit = true ∧
          ∀ (force : Bool) (dsId : Nat) (ed : String) (db : DB) (cnt : Counters),
            ∃ db2, processLine force dsId ed db cnt line =
              some (db2, bumpAll (bumpType cnt m.rtype))) := by
  constructor
  · intro line hm force dsId ed db cnt
    exact processLine_invalid hm force dsId ed db cnt
  · intro line m hm
    obtain ⟨h1, h2, h3, h4, h5⟩ := matchRecordLine_fields hm
    refine ⟨h1, h2, h3, h4, h5, ?_⟩
    intro force dsId ed db cnt
    obtain ⟨db2, hdb2⟩ := processLine_total force dsId ed db cnt line
    exact ⟨db2, by rw [hdb2, lineCounter_matched hm]⟩

/-- C5 witness: a well-formed ipv4 record line is counted as ipv4. -/
theorem record_decoder_shape_checks_witness :
    ("ipv4" : String) ∈ recordTypeLits ∧
      ∃ db2, processLine false 0 "" emptyDB initCounters
          "apnic|JP|ipv4|1.2.3.4|1024|20120101|allocated" =
        some (db2, bumpAll (bumpType initCounters "ipv4")) := by
  have h := record_decoder_shape_checks.2 "apnic|JP|ipv4|1.2.3.4|1024|20120101|allocated"
    ⟨"apnic", "JP", "ipv4", "1.2.3.4", "1024", "20120101", "allocated", ""⟩ (by decide)
  exact ⟨h.1, h.2.2.2.2.2 false 0 "" emptyDB initCounters⟩

/-- C5 counterexample: the line `apnic|JP|ipv4|...|1|20120101|allocated` has a
value field `...` that is no dotted-quad 32-bit address, yet the decoder
matches it, counts it as an ipv4 record (not invalid) and sends it to the
ipv4 table — refuting the claim that a value failing the ipv4 shape makes the
line invalid. -/
theorem bad_ipv4_value_counted_as_ipv4_cex :
    matchRecordLine "apnic|JP|ipv4|...|1|20120101|allocated" =
        some ⟨"apnic", "JP", "ipv4", "...", "1", "20120101", "allocated", ""⟩ ∧
      (processLine false 0 "" emptyDB initCounters
          "apnic|JP|ipv4|...|1|20120101|allocated").map
        (fun p => (p.2.ipv4, p.2.invalid, p.1.ipv4Rows.map (fun r => r.value))) =
      some (1, 0, ["..."]) := by
  constructor <;> decide

/-- C6 (amended): at the end of the streaming loop,
invalid + ipv4 + asn + ipv6 = all, and all equals the number of lines streamed
after the header — every streamed line increments `all` and exactly one of the
four type/invalid counters; post-header comment and blank lines are streamed
too and are counted as invalid (only the header, summary-slot and leading
comment/blank lines consumed before the loop are excluded). -/
theorem counter_conservation :
    (∀ (force : Bool) (dsId : Nat) (ed : String) (db db2 : DB) (lines : List String)
      (cnt2 : Counters),
        processRecords force dsId ed db initCounters lines = some (db2, cnt2) →
        cnt2.invalid + cnt2.ipv4 + cnt2.asn + cnt2.ipv6 = cnt2.all ∧
          cnt2.all = lines.length) ∧
      (∀ (cnt : Counters) (line : String),
        (matchRecordLine line = none → lineCounter cnt line = bumpAll (bumpInvalid cnt)) ∧
          (∀ m : RecordMatches, matchRecordLine line = some m →
            lineCounter cnt line = bumpAll (bumpType cnt m.rtype))) ∧
      (∀ (force : Bool) (dsId : Nat) (ed : String) (db : DB) (cnt : Counters) (line : String)
        (db2 : DB) (cnt2 : Counters),
        processLine force dsId ed db cnt line = some (db2, cnt2) →
        cnt2 = lineCounter cnt line) := by
  refine ⟨?_, ?_, ?_⟩
  · intro force dsId ed db db2 lines cnt2 h
    have hcnt := (processRecords_shape lines force dsId ed db initCounters db2 cnt2 h).2.2.2.1
    obtain ⟨ha, hsum⟩ := countersRun_sums lines initCounters
    subst hcnt
    constructor
    · rw [hsum, ha]
      simp [initCounters]
    · rw [ha]
      simp [initCounters]
  · intro cnt line
    exact ⟨fun hm => lineCounter_invalid hm cnt, fun m hm => lineCounter_matched hm cnt⟩
  · intro force dsId ed db cnt line db2 cnt2 h
    exact (processLine_shape h).2.2.2.1

/-- C6 witness: one non-matching streamed line gives invalid = all = 1. -/
theorem counter_conservation_witness :
    (⟨0, 0, 0, 1, 1⟩ : Counters).invalid + (⟨0, 0, 0, 1, 1⟩ : Counters).ipv4 +
        (⟨0, 0, 0, 1, 1⟩ : Counters).asn + (⟨0, 0, 0, 1, 1⟩ : Counters).ipv6 =
      (⟨0, 0, 0, 1, 1⟩ : Counters).all ∧
      (⟨0, 0, 0, 1, 1⟩ : Counters).all = (["x"] : List String).length :=
  counter_conservation.1 false 0 "" emptyDB emptyDB ["x"] ⟨0, 0, 0, 1, 1⟩ (by decide)

/-- C6 counterexample: a run whose only post-header streamed line is the
comment `#c` ends with invalid + ipv4 + asn + ipv6 = 1, while the claim's
totalLinesProcessed ("after excluding header/summary/comment/blank lines")
is 0 for that stream — the code streams and counts post-header comment/blank
lines as invalid, so the equation as the claim defines it fails. -/
theorem counter_equation_excluding_comments_cex :
    (parseData false false emptyDB
        ["2.3|apnic|20230101|3|20230101|20230101|900", "x", "x", "x", "#c"]).map
      (fun p => (p.2.invalid + p.2.ipv4 + p.2.asn + p.2.ipv6, p.2.all)) = some (1, 1) ∧
      specTotalLinesProcessed (List.drop 4
        ["2.3|apnic|20230101|3|20230101|20230101|900", "x", "x", "x", "#c"]) = 0 := by
  constructor <;> decide

/-- C8 (amended): once the header phase is done, the streaming loop never
aborts on a line whose persistence succeeds or fails with a MySQL error (of
any error number, duplicate-key or not): the loop iteration continues and the
whole loop processes every remaining line (the store of this model signals
only MySQL duplicate-key errors).  An exec error that is not a MySQL driver
error, however, crashes the iteration (see the counterexample). -/
theorem streaming_tolerates_store_errors :
    (∀ (force : Bool) (db : DB) (cnt : Counters) (n : Nat),
        processLineCore force db cnt (some (StoreErr.mysqlErr n)) = some (db, cnt)) ∧
      (∀ (force : Bool) (db : DB) (cnt : Counters),
        processLineCore force db cnt none = some (db, cnt)) ∧
      (∀ (lines : List String) (force : Bool) (dsId : Nat) (ed : String) (db : DB)
        (cnt : Counters),
        ∃ db2, processRecords force dsId ed db cnt lines = some (db2, countersRun cnt lines)) :=
  ⟨fun _ _ _ _ => rfl, fun _ _ _ => rfl, processRecords_total⟩

/-- C8 counterexample: a store error that is not a MySQL driver error makes
the loop iteration abort (the failed `err.(*mysql.MySQLError)` assertion
leaves a nil pointer whose `Number` field is then read) — refuting "any other
store error" being tolerated. -/
theorem non_mysql_store_error_aborts_cex :
    processLineCore true emptyDB initCounters (some StoreErr.otherErr) = none := by
  decide

/-- C9: classifying blank lines is NOT total: a completely empty leading line
makes `parseHeader` read `line[0]` out of range and the run panics (the model
returns `none`), even in the invalid-header-tolerated mode; leading `#`
comments and lines holding only a carriage return are skipped as claimed. -/
theorem blank_line_crashes_header_skip :
    skipComments ["", "2.3|apnic|20230101|3|20230101|20230101|900"] = none ∧
      parseData false true emptyDB ["", "2.3|apnic|20230101|3|20230101|20230101|900"] = none ∧
      skipComments ["#comment", "\r", "2.3|apnic|20230101|3|20230101|20230101|900"] =
        some ("2.3|apnic|20230101|3|20230101|20230101|900", []) := by
  refine ⟨by decide, by decide, by decide⟩

/-- C10 (amended): a serial or recordCount field whose decimal value exceeds
2^32 - 1 still parses successfully, and the field is stored as 2^32 - 1 (the
value Go's ParseUint returns on a range error, whose error component the code
discards), not 0. -/
theorem numeric_overflow_clamps_to_max (ih : Bool) (line : String) (m : VersionMatches)
    (hm : matchVersionLine line = some m) :
    (2 ^ 32 ≤ digitsToNat m.serial.data →
      (parseVersionLine ih defaultHeader line).map (fun p => (p.1.serial, p.2)) =
        some (2 ^ 32 - 1, true)) ∧
      (2 ^ 32 ≤ digitsToNat m.records.data →
        (parseVersionLine ih defaultHeader line).map (fun p => (p.1.records, p.2)) =
          some (2 ^ 32 - 1, true)) := by
  obtain ⟨hn1, hd1, hn2, hd2⟩ := matchVersionLine_fields hm
  constructor
  · intro ho
    have hu : goParseUint m.serial 32 = 2 ^ 32 - 1 := by
      rw [goParseUint_digits hn1 hd1]
      exact min_eq_right (le_trans (Nat.sub_le _ _) ho)
    simp only [parseVersionLine, hm, Option.map_some']
    rw [hu]
  · intro ho
    have hu : goParseUint m.records 32 = 2 ^ 32 - 1 := by
      rw [goParseUint_digits hn2 hd2]
      exact min_eq_right (le_trans (Nat.sub_le _ _) ho)
    simp only [parseVersionLine, hm, Option.map_some']
    rw [hu]

/-- C10 witness: serial 4294967297 (> 2^32 - 1) is stored as 2^32 - 1. -/
theorem numeric_overflow_clamps_to_max_witness :
    (parseVersionLine false defaultHeader "2.3|apnic|4294967297|3|20230101|20230101|900").map
        (fun p => (p.1.serial, p.2)) = some (2 ^ 32 - 1, true) :=
  (numeric_overflow_clamps_to_max false "2.3|apnic|4294967297|3|20230101|20230101|900"
    ⟨"3", "apnic", "4294967297", "3", "20230101", "20230101", "900"⟩ (by decide)).1
    (by decide)

/-- C10 counterexample: recordCount 99999999999 parses successfully and is
stored as 4294967295 — not 0 as the claim states. -/
theorem records_overflow_not_zero_cex :
    (parseVersionLine false defaultHeader
        "2.3|apnic|20230101|99999999999|20230101|20230101|900").map
      (fun p => (p.1.records, p.2)) = some (4294967295, true) := by
  decide

end Ip2Asn
